import Mathlib

/-!
Shallow embedding of `src/mongo/db/exec/index_scan.cpp` (the `IndexScan`
plan stage): a bounded, directional index range scan with boundary
detection, multikey deduplication, yield (suspension) recovery and
invalidation handling.

Modelling conventions:
- Index keys (`BSONObj` compared through `woCompare` under the index key
  pattern) are modelled as `Int`; `woCompare a b` is `a - b`, whose sign
  agrees with the three-way comparison the code consumes through `sgn`.
  `binaryEqual` on keys is modelled as equality on `Int`.
- `DiskLoc` record locations are modelled as `Nat`.
- The underlying `IndexCursor` collaborator is modelled as the ordered list
  of entries it yields from the seek point, plus a position; `seek`,
  `next`, `isEOF`, `getKey`, `getValue` mirror the cursor interface.
- The `WorkingSet` collaborator is an id-keyed association list with a
  fresh-id counter; `allocate`, `get`/mutate (as `set`), `free` mirror it.
- The `MatchExpression` filter is an optional boolean predicate on the
  constructed working-set member; `Filter.passes` with no filter is true.
- Stats counters (`CommonStats`, `IndexScanStats`) are `Nat` fields.
-/

/-- Record location (`DiskLoc`). -/
abbrev DiskLoc := Nat

/-- Index key (`BSONObj` under the index ordering). -/
abbrev IndexKey := Int

/-- Model of `BSONObj::woCompare` for integer-modelled keys: negative,
zero or positive as `a` is below, equal to or above `b`. -/
def woCompare (a b : IndexKey) : Int := a - b

/-- `sgn` from the anonymous namespace of `index_scan.cpp`: the sign of
`i` in `{-1, 0, 1}`. -/
def sgn (i : Int) : Int :=
  if i = 0 then 0 else if i > 0 then 1 else -1

/-- One index entry as surfaced by the cursor: key and record location. -/
structure IndexEntry where
  key : IndexKey
  loc : DiskLoc
  deriving Repr, DecidableEq

/-- Model of the `IndexCursor` collaborator: the entries it traverses, in
cursor order, and the current position. -/
structure IndexCursor where
  entries : List IndexEntry
  pos : Nat
  deriving Repr, DecidableEq

namespace IndexCursor

/-- `IndexCursor::isEOF`. -/
def isEOF (c : IndexCursor) : Bool := c.entries.length ≤ c.pos

/-- `IndexCursor::next`. -/
def next (c : IndexCursor) : IndexCursor := { c with pos := c.pos + 1 }

/-- `IndexCursor::getKey` (meaningful only when not EOF). -/
def getKey (c : IndexCursor) : IndexKey := (c.entries.getD c.pos ⟨0, 0⟩).key

/-- `IndexCursor::getValue` (meaningful only when not EOF). -/
def getValue (c : IndexCursor) : DiskLoc := (c.entries.getD c.pos ⟨0, 0⟩).loc

/-- Cursor construction and `seek(startKey)`: a directional cursor
positioned at the first entry not before `startKey` in the direction of
travel (`direction` is `1` for increasing, otherwise decreasing). -/
def seek (direction : Int) (startKey : IndexKey) (entries : List IndexEntry) :
    IndexCursor :=
  { entries := entries
    pos := entries.findIdx fun e =>
      if direction = 1 then startKey ≤ e.key else e.key ≤ startKey }

end IndexCursor

/-- `WorkingSetMember` state tag: this stage produces `LOC_AND_IDX`. -/
inductive MemberState where
  | INVALID
  | LOC_AND_IDX
  deriving Repr, DecidableEq

/-- `WorkingSetMember`: the record location plus the matched index key
data pushed by the stage. -/
structure WorkingSetMember where
  loc : DiskLoc
  keyData : List IndexKey
  state : MemberState
  deriving Repr, DecidableEq

/-- Model of the `WorkingSet` collaborator: allocated members keyed by
`WorkingSetID`, with a fresh-id counter. -/
structure WorkingSet where
  nextId : Nat
  members : List (Nat × WorkingSetMember)
  deriving Repr, DecidableEq

namespace WorkingSet

/-- `WorkingSet::allocate`: returns the updated container and the new id. -/
def allocate (ws : WorkingSet) : WorkingSet × Nat :=
  ({ nextId := ws.nextId + 1
     members := (ws.nextId, ⟨0, [], .INVALID⟩) :: ws.members }, ws.nextId)

/-- Mutation through `WorkingSet::get`: overwrite the member stored at
`id`. -/
def set (ws : WorkingSet) (id : Nat) (m : WorkingSetMember) : WorkingSet :=
  { ws with members := ws.members.map fun p => if p.1 = id then (id, m) else p }

/-- `WorkingSet::get` as a lookup (for stating properties). -/
def get (ws : WorkingSet) (id : Nat) : Option WorkingSetMember :=
  (ws.members.find? fun p => p.1 = id).map Prod.snd

/-- `WorkingSet::free`. -/
def free (ws : WorkingSet) (id : Nat) : WorkingSet :=
  { ws with members := ws.members.filter fun p => p.1 ≠ id }

end WorkingSet

/-- Model of the optional `MatchExpression` filter. -/
abbrev MatchFilter := Option (WorkingSetMember → Bool)

namespace Filter

/-- `Filter::passes(member, filter)`: a null filter always passes. -/
def passes (m : WorkingSetMember) (f : MatchFilter) : Bool :=
  match f with
  | none => true
  | some p => p m

end Filter

/-- `PlanStage::StageState` values this stage returns from `work`. -/
inductive StageState where
  | ADVANCED (id : Nat)
  | NEED_TIME
  | IS_EOF
  deriving Repr, DecidableEq

/-- The `CommonStats` counters touched by this stage. -/
structure CommonStats where
  works : Nat
  yields : Nat
  unyields : Nat
  invalidates : Nat
  advanced : Nat
  needTime : Nat
  isEOF : Bool
  deriving Repr, DecidableEq

/-- The `IndexScanStats` specific counters. -/
structure IndexScanStats where
  dupsTested : Nat
  dupsDropped : Nat
  matchTested : Nat
  yieldMovedCursor : Nat
  seenInvalidated : Nat
  deriving Repr, DecidableEq

/-- `IndexScanParams` plus the two descriptor facts the stage reads
(`isMultikey`, and the access-method name derived from the key pattern). -/
structure IndexScanParams where
  startKey : IndexKey
  /-- `none` models an empty `endKey` object (unbounded scan). -/
  endKey : Option IndexKey
  endKeyInclusive : Bool
  direction : Int
  limit : Nat
  isMultikey : Bool
  accessMethodName : String
  forceBtreeAccessMethod : Bool

/-- The `IndexScan` stage state. -/
structure IndexScan where
  startKey : IndexKey
  endKey : Option IndexKey
  endKeyInclusive : Bool
  direction : Int
  hitEnd : Bool
  filter : MatchFilter
  shouldDedup : Bool
  yieldMovedCursor : Bool
  numWanted : Nat
  /-- The content of the underlying index as the access method's new
  cursor will traverse it (the `_iam` collaborator's data). -/
  indexEntries : List IndexEntry
  indexCursor : Option IndexCursor
  returned : List DiskLoc
  savedKey : IndexKey
  savedLoc : DiskLoc
  commonStats : CommonStats
  specificStats : IndexScanStats

namespace IndexScan

/-- The constructor body after the access-method dispatch: member
initialization from `IndexScanParams`. -/
def init (params : IndexScanParams) (filter : MatchFilter)
    (entries : List IndexEntry) : IndexScan :=
  { startKey := params.startKey
    endKey := params.endKey
    endKeyInclusive := params.endKeyInclusive
    direction := params.direction
    hitEnd := false
    filter := filter
    shouldDedup := params.isMultikey
    yieldMovedCursor := false
    numWanted := params.limit
    indexEntries := entries
    indexCursor := none
    returned := []
    savedKey := 0
    savedLoc := 0
    commonStats := ⟨0, 0, 0, 0, 0, 0, false⟩
    specificStats := ⟨0, 0, 0, 0, 0⟩ }

/-- `IndexScan::IndexScan`: for the 2d and 2dsphere access methods the
end key is meaningless, and `verify(_endKey.isEmpty())` rejects a
non-empty one; modelled as an `Except` returning the configuration
error. -/
def construct (params : IndexScanParams) (filter : MatchFilter)
    (entries : List IndexEntry) : Except String IndexScan :=
  if ((if params.forceBtreeAccessMethod then "" else params.accessMethodName)
        = "2d"
      ∨ (if params.forceBtreeAccessMethod then "" else params.accessMethodName)
        = "2dsphere")
     ∧ params.endKey ≠ none then
    Except.error "endKey must be empty for 2d and 2dsphere indexes"
  else
    Except.ok (init params filter entries)

/-- `IndexScan::isEOF`: false before the first `work` constructs a
cursor; afterwards the OR of cursor exhaustion and the boundary flag. -/
def isEOF (s : IndexScan) : Bool :=
  match s.indexCursor with
  | none => false
  | some c => c.isEOF || s.hitEnd

/-- The boundary condition of `IndexScan::checkEnd`: with
`cmp = sgn(endKey.woCompare(currentKey))`, the end is hit when
`(cmp != 0 && cmp != direction) || (cmp == 0 && !endKeyInclusive)`;
an empty end key never hits. -/
def boundaryHit (endKey : Option IndexKey) (curKey : IndexKey)
    (direction : Int) (inclusive : Bool) : Bool :=
  match endKey with
  | none => false
  | some ek =>
    let cmp := sgn (woCompare ek curKey)
    if (cmp ≠ 0 ∧ cmp ≠ direction) ∨ (cmp = 0 ∧ inclusive = false) then
      true
    else
      false

/-- `IndexScan::checkEnd`: no-op at EOF (beyond marking the stats EOF
bit) or for an empty end key; otherwise sets `_hitEnd` when the current
key is past (or exclusively at) the end bound. -/
def checkEnd (s : IndexScan) : IndexScan :=
  if s.isEOF then
    { s with commonStats := { s.commonStats with isEOF := true } }
  else
    match s.indexCursor with
    | none => s
    | some c =>
      if boundaryHit s.endKey c.getKey s.direction s.endKeyInclusive then
        { s with hitEnd := true
                 commonStats := { s.commonStats with isEOF := true } }
      else
        s

/-- `++_commonStats.works`. -/
def incWorks (s : IndexScan) : IndexScan :=
  { s with commonStats :=
      { s.commonStats with works := s.commonStats.works + 1 } }

/-- `++_commonStats.needTime`. -/
def incNeedTime (s : IndexScan) : IndexScan :=
  { s with commonStats :=
      { s.commonStats with needTime := s.commonStats.needTime + 1 } }

/-- `++_commonStats.advanced`. -/
def incAdvanced (s : IndexScan) : IndexScan :=
  { s with commonStats :=
      { s.commonStats with advanced := s.commonStats.advanced + 1 } }

/-- `++_commonStats.yields`. -/
def incYields (s : IndexScan) : IndexScan :=
  { s with commonStats :=
      { s.commonStats with yields := s.commonStats.yields + 1 } }

/-- `++_commonStats.unyields`. -/
def incUnyields (s : IndexScan) : IndexScan :=
  { s with commonStats :=
      { s.commonStats with unyields := s.commonStats.unyields + 1 } }

/-- `++_commonStats.invalidates`. -/
def incInvalidates (s : IndexScan) : IndexScan :=
  { s with commonStats :=
      { s.commonStats with invalidates := s.commonStats.invalidates + 1 } }

/-- `++_specificStats.dupsTested`. -/
def incDupsTested (s : IndexScan) : IndexScan :=
  { s with specificStats :=
      { s.specificStats with dupsTested := s.specificStats.dupsTested + 1 } }

/-- `++_specificStats.dupsDropped`. -/
def incDupsDropped (s : IndexScan) : IndexScan :=
  { s with specificStats :=
      { s.specificStats with
          dupsDropped := s.specificStats.dupsDropped + 1 } }

/-- `++_specificStats.matchTested`. -/
def incMatchTested (s : IndexScan) : IndexScan :=
  { s with specificStats :=
      { s.specificStats with
          matchTested := s.specificStats.matchTested + 1 } }

/-- The cursor-positioning phase at the top of `IndexScan::work`
(lines of `work` before the EOF test): first call constructs, configures
and seeks the cursor then checks the end; after a yield that moved the
cursor the current position is kept (no `next`); otherwise the cursor
advances and the end is re-checked. -/
def advancePhase (s : IndexScan) : IndexScan :=
  match s.indexCursor with
  | none =>
    checkEnd { s with
      indexCursor :=
        some (IndexCursor.seek s.direction s.startKey s.indexEntries) }
  | some c =>
    if s.yieldMovedCursor then
      { s with yieldMovedCursor := false }
    else
      checkEnd { s with indexCursor := some c.next }

/-- The result-construction-and-filter tail of `IndexScan::work`:
allocate a working-set member holding the location and matched key, run
the filter, and on rejection free the member before returning. -/
def materialize (s : IndexScan) (ws : WorkingSet) (c : IndexCursor) :
    IndexScan × WorkingSet × StageState :=
  if Filter.passes ⟨c.getValue, [c.getKey], .LOC_AND_IDX⟩ s.filter then
    (incAdvanced (if s.filter.isSome then incMatchTested s else s),
     (ws.allocate.1.set ws.allocate.2 ⟨c.getValue, [c.getKey], .LOC_AND_IDX⟩),
     .ADVANCED ws.allocate.2)
  else
    (incNeedTime s,
     ((ws.allocate.1.set ws.allocate.2
        ⟨c.getValue, [c.getKey], .LOC_AND_IDX⟩).free ws.allocate.2),
     .NEED_TIME)

/-- The candidate-examination part of `IndexScan::work` once the stage
is known not to be at EOF, with `c` the current cursor: the dedup
test-and-insert followed by materialization. -/
def examineCandidate (s : IndexScan) (ws : WorkingSet) (c : IndexCursor) :
    IndexScan × WorkingSet × StageState :=
  if s.shouldDedup then
    if c.getValue ∈ s.returned then
      (incNeedTime (incDupsDropped (incDupsTested s)), ws, .NEED_TIME)
    else
      materialize
        { incDupsTested s with returned := c.getValue :: s.returned } ws c
  else
    materialize s ws c

/-- `IndexScan::work` after the works-counter bump and cursor
positioning: return `IS_EOF` at EOF, otherwise examine the current
candidate. -/
def workBody (s : IndexScan) (ws : WorkingSet) :
    IndexScan × WorkingSet × StageState :=
  if s.isEOF then
    (s, ws, .IS_EOF)
  else
    match s.indexCursor with
    | none => (s, ws, .IS_EOF)
    | some c => examineCandidate s ws c

/-- `IndexScan::work`. Returns the updated stage, the updated working
set, and the stage state (with the output `WorkingSetID` carried on
`ADVANCED`). -/
def work (s₀ : IndexScan) (ws : WorkingSet) :
    IndexScan × WorkingSet × StageState :=
  workBody (advancePhase (incWorks s₀)) ws

/-- The body of `IndexScan::prepareToYield` after the yields-counter
bump: unless at EOF or before cursor construction, snapshot the current
key and location (the underlying cursor's own `savePosition` is
external). -/
def saveBody (s : IndexScan) : IndexScan :=
  if s.isEOF || s.indexCursor.isNone then
    s
  else
    match s.indexCursor with
    | none => s
    | some c => { s with savedKey := c.getKey, savedLoc := c.getValue }

/-- `IndexScan::prepareToYield`. -/
def prepareToYield (s : IndexScan) : IndexScan :=
  saveBody (incYields s)

/-- The body of `IndexScan::recoverFromYield` after the unyields-counter
bump: unless at EOF or before cursor construction, adopt the position
the underlying cursor restored to (`restored`, supplied by the storage
collaborator); if it differs from the saved key/location, flag that the
next `work` must not advance, count the move, and re-derive the
boundary status. -/
def restoreBody (s : IndexScan) (restored : IndexCursor) : IndexScan :=
  if s.isEOF || s.indexCursor.isNone then
    s
  else
    if s.savedKey ≠ restored.getKey ∨ s.savedLoc ≠ restored.getValue then
      checkEnd { s with
        indexCursor := some restored
        yieldMovedCursor := true
        specificStats :=
          { s.specificStats with
              yieldMovedCursor := s.specificStats.yieldMovedCursor + 1 } }
    else
      { s with indexCursor := some restored }

/-- `IndexScan::recoverFromYield`. -/
def recoverFromYield (s : IndexScan) (restored : IndexCursor) : IndexScan :=
  restoreBody (incUnyields s) restored

/-- `IndexScan::invalidate`: bump the invalidates counter; if the
location is in the dedup set, count it and erase it. -/
def invalidate (s : IndexScan) (dl : DiskLoc) : IndexScan :=
  if dl ∈ s.returned then
    { incInvalidates s with
      specificStats :=
        { (incInvalidates s).specificStats with
            seenInvalidated := s.specificStats.seenInvalidated + 1 }
      returned := s.returned.erase dl }
  else
    incInvalidates s

/-- Iterated `work`: the results of `n` successive calls. -/
def workN (s : IndexScan) (ws : WorkingSet) :
    Nat → IndexScan × WorkingSet × StageState
  | 0 => work s ws
  | n + 1 =>
    let r := work s ws
    workN r.1 r.2.1 n

/-- The location `work` would examine after its cursor-positioning
phase: `none` when that call returns `IS_EOF`. -/
def stepCandidate (s₀ : IndexScan) : Option DiskLoc :=
  if (advancePhase (incWorks s₀)).isEOF then
    none
  else
    (advancePhase (incWorks s₀)).indexCursor.map IndexCursor.getValue

/-- The working-set member `work` would construct after its
cursor-positioning phase: `none` when that call returns `IS_EOF`. -/
def stepMember (s₀ : IndexScan) : Option WorkingSetMember :=
  if (advancePhase (incWorks s₀)).isEOF then
    none
  else
    (advancePhase (incWorks s₀)).indexCursor.map
      fun c => ⟨c.getValue, [c.getKey], .LOC_AND_IDX⟩

end IndexScan

/-! ### Structural lemmas about the embedded operations -/

namespace IndexScan

theorem checkEnd_proj (s : IndexScan) :
    (checkEnd s).indexCursor = s.indexCursor
    ∧ (checkEnd s).returned = s.returned
    ∧ (checkEnd s).shouldDedup = s.shouldDedup
    ∧ (checkEnd s).filter = s.filter
    ∧ (checkEnd s).specificStats = s.specificStats
    ∧ (checkEnd s).yieldMovedCursor = s.yieldMovedCursor := by
  unfold checkEnd
  split
  · exact ⟨rfl, rfl, rfl, rfl, rfl, rfl⟩
  · split
    · exact ⟨rfl, rfl, rfl, rfl, rfl, rfl⟩
    · split <;> exact ⟨rfl, rfl, rfl, rfl, rfl, rfl⟩

theorem checkEnd_cursor (s : IndexScan) :
    (checkEnd s).indexCursor = s.indexCursor := (checkEnd_proj s).1

theorem isEOF_incWorks (s : IndexScan) : (incWorks s).isEOF = s.isEOF := rfl

theorem checkEnd_eof_mono (s : IndexScan) (h : s.isEOF = true) :
    (checkEnd s).isEOF = true := by
  unfold checkEnd
  split
  · next h₂ => exact h₂
  · exact absurd h (by simp_all)

theorem advancePhase_eof_mono (s : IndexScan) (h : s.isEOF = true) :
    (advancePhase s).isEOF = true := by
  unfold advancePhase
  unfold isEOF at h
  split
  · simp_all
  · next c hc =>
    split
    · simpa [isEOF, hc] using h
    · apply checkEnd_eof_mono
      rw [hc] at h
      simp only [isEOF, IndexCursor.isEOF, IndexCursor.next,
        Bool.or_eq_true, decide_eq_true_eq] at h ⊢
      rcases h with h | h
      · exact Or.inl (by omega)
      · exact Or.inr h

theorem advancePhase_cursor_isSome (s : IndexScan) :
    (advancePhase s).indexCursor.isSome = true := by
  unfold advancePhase
  split
  · rw [checkEnd_cursor]; rfl
  · next c hc =>
    split
    · simp [hc]
    · rw [checkEnd_cursor]; rfl

theorem advancePhase_proj (s : IndexScan) :
    (advancePhase s).returned = s.returned
    ∧ (advancePhase s).shouldDedup = s.shouldDedup
    ∧ (advancePhase s).filter = s.filter
    ∧ (advancePhase s).specificStats = s.specificStats := by
  unfold advancePhase
  split
  · obtain ⟨_, h₁, h₂, h₃, h₄, _⟩ := checkEnd_proj
      ({ s with
         indexCursor :=
           some (IndexCursor.seek s.direction s.startKey s.indexEntries) })
    exact ⟨h₁, h₂, h₃, h₄⟩
  · next c hc =>
    split
    · exact ⟨rfl, rfl, rfl, rfl⟩
    · obtain ⟨_, h₁, h₂, h₃, h₄, _⟩ :=
        checkEnd_proj ({ s with indexCursor := some c.next })
      exact ⟨h₁, h₂, h₃, h₄⟩

theorem advancePhase_yieldMoved (s : IndexScan) (c : IndexCursor)
    (hc : s.indexCursor = some c) (hy : s.yieldMovedCursor = true) :
    advancePhase s = { s with yieldMovedCursor := false } := by
  unfold advancePhase
  rw [hc]
  simp [hy]

theorem materialize_proj (s : IndexScan) (ws : WorkingSet) (c : IndexCursor) :
    (materialize s ws c).1.returned = s.returned
    ∧ (materialize s ws c).1.specificStats.dupsDropped
        = s.specificStats.dupsDropped := by
  unfold materialize
  split
  · split <;> exact ⟨rfl, rfl⟩
  · exact ⟨rfl, rfl⟩

theorem workBody_eof (s : IndexScan) (ws : WorkingSet) (h : s.isEOF = true) :
    workBody s ws = (s, ws, .IS_EOF) := by
  unfold workBody
  rw [if_pos h]

theorem examineCandidate_ne_eof (s : IndexScan) (ws : WorkingSet)
    (c : IndexCursor) : (examineCandidate s ws c).2.2 ≠ .IS_EOF := by
  unfold examineCandidate materialize
  split
  · split
    · simp
    · split <;> simp
  · split <;> simp

theorem work_eof (s : IndexScan) (ws : WorkingSet) (h : s.isEOF = true) :
    (work s ws).2.2 = .IS_EOF ∧ (work s ws).1.isEOF = true := by
  have h₂ : (advancePhase (incWorks s)).isEOF = true :=
    advancePhase_eof_mono _ (by rw [isEOF_incWorks]; exact h)
  unfold work
  rw [workBody_eof _ _ h₂]
  exact ⟨rfl, h₂⟩

theorem work_done_eof (s : IndexScan) (ws : WorkingSet)
    (h : (work s ws).2.2 = .IS_EOF) : (work s ws).1.isEOF = true := by
  have hsome := advancePhase_cursor_isSome (incWorks s)
  unfold work workBody at h ⊢
  split at h
  · next he => rw [if_pos he]; exact he
  · next he =>
    rw [if_neg he]
    split at h
    · next hc => rw [hc] at hsome; simp at hsome
    · exact absurd h (examineCandidate_ne_eof _ _ _)

theorem workN_eof (s : IndexScan) (ws : WorkingSet) (h : s.isEOF = true) :
    ∀ n, (workN s ws n).2.2 = .IS_EOF ∧ (workN s ws n).1.isEOF = true
  | 0 => work_eof s ws h
  | n + 1 => workN_eof (work s ws).1 (work s ws).2.1 (work_eof s ws h).2 n

end IndexScan

namespace IndexScan

theorem checkEnd_hitEnd_eq (s : IndexScan) (c : IndexCursor)
    (hc : s.indexCursor = some c) (he : s.isEOF = false) :
    (checkEnd s).hitEnd =
      boundaryHit s.endKey c.getKey s.direction s.endKeyInclusive := by
  have he' := he
  unfold isEOF at he'
  rw [hc] at he'
  simp only [Bool.or_eq_false_iff] at he'
  unfold checkEnd
  rw [if_neg (by simp [he]), hc]
  dsimp only
  split
  · next hb => exact hb.symm
  · next hb =>
    rw [he'.2]
    simp only [Bool.not_eq_true] at hb
    exact hb.symm

theorem examineCandidate_returned (s : IndexScan) (ws : WorkingSet)
    (c : IndexCursor) :
    (examineCandidate s ws c).1.returned =
      (if s.shouldDedup then
        (if c.getValue ∈ s.returned then s.returned
         else c.getValue :: s.returned)
       else s.returned) := by
  unfold examineCandidate
  split
  · split
    · rfl
    · exact (materialize_proj _ _ _).1
  · exact (materialize_proj _ _ _).1

theorem invalidate_returned (s : IndexScan) (L : DiskLoc) :
    (invalidate s L).returned = s.returned.erase L := by
  unfold invalidate
  split
  · rfl
  · next hm => exact (List.erase_of_not_mem hm).symm

theorem invalidate_proj (s : IndexScan) (L : DiskLoc) :
    (invalidate s L).shouldDedup = s.shouldDedup
    ∧ (invalidate s L).filter = s.filter
    ∧ (invalidate s L).specificStats.dupsDropped
        = s.specificStats.dupsDropped := by
  unfold invalidate
  split <;> exact ⟨rfl, rfl, rfl⟩

theorem materialize_result (s : IndexScan) (ws : WorkingSet)
    (c : IndexCursor) :
    (materialize s ws c).2.2 =
      (if Filter.passes ⟨c.getValue, [c.getKey], .LOC_AND_IDX⟩ s.filter then
        StageState.ADVANCED ws.allocate.2
       else .NEED_TIME) := by
  unfold materialize
  split <;> rfl

end IndexScan

theorem ws_alloc_set_free (ws : WorkingSet) (m : WorkingSetMember)
    (h : ∀ q ∈ ws.members, q.1 < ws.nextId) :
    ((ws.allocate.1.set ws.allocate.2 m).free ws.allocate.2).members
      = ws.members := by
  unfold WorkingSet.allocate WorkingSet.set WorkingSet.free
  dsimp only
  have hmap : ∀ l : List (Nat × WorkingSetMember),
      (∀ q ∈ l, q.1 < ws.nextId) →
      l.map (fun p => if p.1 = ws.nextId then (ws.nextId, m) else p) = l := by
    intro l hl
    induction l with
    | nil => rfl
    | cons a t ih =>
      simp only [List.map_cons]
      rw [if_neg (Nat.ne_of_lt (hl a (List.mem_cons_self a t))),
        ih fun q hq => hl q (List.mem_cons_of_mem a hq)]
  simp only [List.map_cons, List.filter_cons, hmap ws.members h]
  simp [List.filter_eq_self]
  intro a b hab
  exact Nat.ne_of_lt (h (a, b) hab)

namespace IndexScan

theorem work_ws (s : IndexScan) (ws : WorkingSet)
    (hwf : ∀ q ∈ ws.members, q.1 < ws.nextId) :
    (work s ws).2.1.members = ws.members
    ∨ ∃ id, (work s ws).2.2 = .ADVANCED id := by
  unfold work workBody
  by_cases ha : (advancePhase (incWorks s)).isEOF = true
  · left; rw [if_pos ha]
  · rw [if_neg ha]
    obtain ⟨c, hc⟩ := Option.isSome_iff_exists.mp
      (advancePhase_cursor_isSome (incWorks s))
    rw [hc]
    dsimp only
    unfold examineCandidate
    split
    · split
      · left; rfl
      · unfold materialize
        split
        · right; exact ⟨_, rfl⟩
        · left; exact ws_alloc_set_free ws _ hwf
    · unfold materialize
      split
      · right; exact ⟨_, rfl⟩
      · left; exact ws_alloc_set_free ws _ hwf

theorem work_returned (s : IndexScan) (ws : WorkingSet) :
    (work s ws).1.returned =
      (if s.shouldDedup then
        match stepCandidate s with
        | some loc =>
          if loc ∈ s.returned then s.returned else loc :: s.returned
        | none => s.returned
       else s.returned) := by
  unfold work workBody stepCandidate
  by_cases ha : (advancePhase (incWorks s)).isEOF = true
  · rw [if_pos ha, if_pos ha]
    have h1 : (advancePhase (incWorks s)).returned = s.returned :=
      (advancePhase_proj (incWorks s)).1
    simp [h1]
  · rw [if_neg ha, if_neg ha]
    obtain ⟨c, hc⟩ := Option.isSome_iff_exists.mp
      (advancePhase_cursor_isSome (incWorks s))
    rw [hc]
    dsimp only
    rw [examineCandidate_returned]
    rw [(advancePhase_proj (incWorks s)).2.1]
    have h1 : (advancePhase (incWorks s)).returned = s.returned :=
      (advancePhase_proj (incWorks s)).1
    rw [h1]
    rfl

end IndexScan

/-! ### Claim theorems -/

/-- C1: the boundary check of `checkEnd` never reports a hit for an
empty end key; otherwise, with `cmp = sgn(woCompare endKey curKey)` and
direction encoded as `+1`/`-1`, the boundary is hit exactly when
`(cmp ≠ 0 ∧ cmp ≠ direction) ∨ (cmp = 0 ∧ ¬inclusive)` — equivalently a
key equal to the end key hits the boundary iff the bound is exclusive, a
key strictly past the end key in the direction of travel always hits it,
and a key strictly before it never does; and on a non-EOF state
`checkEnd` sets `hitEnd` to exactly this condition at the current
cursor key. -/
theorem C1_boundary_check (ek curKey direction : Int) (inclusive : Bool)
    (hdir : direction = 1 ∨ direction = -1) :
    IndexScan.boundaryHit none curKey direction inclusive = false
    ∧ (IndexScan.boundaryHit (some ek) curKey direction inclusive = true ↔
        ((sgn (woCompare ek curKey) ≠ 0 ∧ sgn (woCompare ek curKey) ≠ direction)
          ∨ (sgn (woCompare ek curKey) = 0 ∧ inclusive = false)))
    ∧ (curKey = ek →
        (IndexScan.boundaryHit (some ek) curKey direction inclusive = true ↔
          inclusive = false))
    ∧ (direction * (curKey - ek) > 0 →
        IndexScan.boundaryHit (some ek) curKey direction inclusive = true)
    ∧ (direction * (curKey - ek) < 0 →
        IndexScan.boundaryHit (some ek) curKey direction inclusive = false)
    ∧ (∀ s : IndexScan, ∀ c, s.indexCursor = some c → s.isEOF = false →
        (IndexScan.checkEnd s).hitEnd =
          IndexScan.boundaryHit s.endKey c.getKey s.direction
            s.endKeyInclusive) := by
  refine ⟨rfl, ?_, ?_, ?_, ?_, IndexScan.checkEnd_hitEnd_eq⟩ <;>
    rcases hdir with h | h <;> subst h <;>
    simp only [IndexScan.boundaryHit, sgn, woCompare] <;>
    split_ifs <;> simp_all <;> omega

/-- C1 witness: the boundary theorem instantiated at the end key `0`,
current key `0`, forward direction, inclusive bound. -/
theorem C1_boundary_check_witness :
    IndexScan.boundaryHit none 0 1 true = false
    ∧ (IndexScan.boundaryHit (some 0) 0 1 true = true ↔
        ((sgn (woCompare 0 0) ≠ 0 ∧ sgn (woCompare 0 0) ≠ 1)
          ∨ (sgn (woCompare 0 0) = 0 ∧ true = false)))
    ∧ ((0 : Int) = 0 →
        (IndexScan.boundaryHit (some 0) 0 1 true = true ↔ true = false))
    ∧ ((1 : Int) * (0 - 0) > 0 →
        IndexScan.boundaryHit (some 0) 0 1 true = true)
    ∧ ((1 : Int) * (0 - 0) < 0 →
        IndexScan.boundaryHit (some 0) 0 1 true = false)
    ∧ (∀ s : IndexScan, ∀ c, s.indexCursor = some c → s.isEOF = false →
        (IndexScan.checkEnd s).hitEnd =
          IndexScan.boundaryHit s.endKey c.getKey s.direction
            s.endKeyInclusive) :=
  C1_boundary_check 0 0 1 true (Or.inl rfl)

/-- C2: a multikey (dedup-enabled) scan over cursor entries
`[1 → 10, 2 → 10, 3 → 20]` with no filter produces exactly two
`ADVANCED` results, first for location `10` then for location `20`; the
step that re-encounters location `10` returns `NEED_TIME`. -/
theorem C2_dedup_scan :
    (IndexScan.workN
      (IndexScan.init ⟨1, none, false, 1, 0, true, "", false⟩ none
        [⟨1, 10⟩, ⟨2, 10⟩, ⟨3, 20⟩]) ⟨0, []⟩ 0).2.2 = .ADVANCED 0
    ∧ ((IndexScan.workN
      (IndexScan.init ⟨1, none, false, 1, 0, true, "", false⟩ none
        [⟨1, 10⟩, ⟨2, 10⟩, ⟨3, 20⟩]) ⟨0, []⟩ 0).2.1.get 0).map (·.loc)
        = some 10
    ∧ (IndexScan.workN
      (IndexScan.init ⟨1, none, false, 1, 0, true, "", false⟩ none
        [⟨1, 10⟩, ⟨2, 10⟩, ⟨3, 20⟩]) ⟨0, []⟩ 1).2.2 = .NEED_TIME
    ∧ (IndexScan.workN
      (IndexScan.init ⟨1, none, false, 1, 0, true, "", false⟩ none
        [⟨1, 10⟩, ⟨2, 10⟩, ⟨3, 20⟩]) ⟨0, []⟩ 2).2.2 = .ADVANCED 1
    ∧ ((IndexScan.workN
      (IndexScan.init ⟨1, none, false, 1, 0, true, "", false⟩ none
        [⟨1, 10⟩, ⟨2, 10⟩, ⟨3, 20⟩]) ⟨0, []⟩ 2).2.1.get 1).map (·.loc)
        = some 20
    ∧ (IndexScan.workN
      (IndexScan.init ⟨1, none, false, 1, 0, true, "", false⟩ none
        [⟨1, 10⟩, ⟨2, 10⟩, ⟨3, 20⟩]) ⟨0, []⟩ 3).2.2 = .IS_EOF :=
  ⟨rfl, rfl, rfl, rfl, rfl, rfl⟩

/-- C3: once a call to `work` returns `IS_EOF`, `isEOF` holds on the
resulting state, and every subsequent call to `work` again returns
`IS_EOF` with `isEOF` still true. -/
theorem C3_terminal_monotonicity (s : IndexScan) (ws : WorkingSet)
    (h : (IndexScan.work s ws).2.2 = .IS_EOF) (n : Nat) :
    (IndexScan.work s ws).1.isEOF = true
    ∧ (IndexScan.workN (IndexScan.work s ws).1
        (IndexScan.work s ws).2.1 n).2.2 = .IS_EOF
    ∧ (IndexScan.workN (IndexScan.work s ws).1
        (IndexScan.work s ws).2.1 n).1.isEOF = true := by
  have h0 := IndexScan.work_done_eof s ws h
  obtain ⟨a, b⟩ :=
    IndexScan.workN_eof (IndexScan.work s ws).1 (IndexScan.work s ws).2.1 h0 n
  exact ⟨h0, a, b⟩

/-- C3 witness: a scan over an empty index returns `IS_EOF` on the first
call, and the theorem applies with two further steps. -/
theorem C3_terminal_monotonicity_witness :
    (IndexScan.work
      (IndexScan.init ⟨1, none, false, 1, 0, false, "", false⟩ none [])
      ⟨0, []⟩).1.isEOF = true
    ∧ (IndexScan.workN
        (IndexScan.work (IndexScan.init
          ⟨1, none, false, 1, 0, false, "", false⟩ none []) ⟨0, []⟩).1
        (IndexScan.work (IndexScan.init
          ⟨1, none, false, 1, 0, false, "", false⟩ none []) ⟨0, []⟩).2.1
        2).2.2 = .IS_EOF
    ∧ (IndexScan.workN
        (IndexScan.work (IndexScan.init
          ⟨1, none, false, 1, 0, false, "", false⟩ none []) ⟨0, []⟩).1
        (IndexScan.work (IndexScan.init
          ⟨1, none, false, 1, 0, false, "", false⟩ none []) ⟨0, []⟩).2.1
        2).1.isEOF = true :=
  C3_terminal_monotonicity
    (IndexScan.init ⟨1, none, false, 1, 0, false, "", false⟩ none []) ⟨0, []⟩
    rfl 2

/-- C4 counterexample: in a multikey scan whose filter rejects
everything, one `work` call returns `NEED_TIME` (the candidate is never
accepted, the advanced counter stays `0`), yet location `10` is present
in the dedup set — refuting the claim that only accepted locations
enter the set. -/
theorem C4_counterexample :
    (IndexScan.work (IndexScan.init ⟨1, none, false, 1, 0, true, "", false⟩
        (some fun _ => false) [⟨1, 10⟩]) ⟨0, []⟩).2.2 = .NEED_TIME
    ∧ (IndexScan.work (IndexScan.init ⟨1, none, false, 1, 0, true, "", false⟩
        (some fun _ => false) [⟨1, 10⟩]) ⟨0, []⟩).1.commonStats.advanced = 0
    ∧ 10 ∈ (IndexScan.work (IndexScan.init
        ⟨1, none, false, 1, 0, true, "", false⟩
        (some fun _ => false) [⟨1, 10⟩]) ⟨0, []⟩).1.returned :=
  ⟨rfl, rfl, by decide⟩

/-- C4 (amended): the dedup set is empty at scan start; a `work` step
adds exactly the location it dedup-tests when dedup is enabled and that
location is not yet present — regardless of whether the result is then
accepted or rejected by the filter; `invalidate` removes the location;
yield preparation and recovery leave the set unchanged. -/
theorem C4_dedup_lifecycle (p : IndexScanParams) (f : MatchFilter)
    (e : List IndexEntry) (s : IndexScan) (ws : WorkingSet)
    (rc : IndexCursor) (L : DiskLoc) :
    (IndexScan.init p f e).returned = []
    ∧ (IndexScan.work s ws).1.returned =
        (if s.shouldDedup then
          match IndexScan.stepCandidate s with
          | some loc =>
            if loc ∈ s.returned then s.returned else loc :: s.returned
          | none => s.returned
         else s.returned)
    ∧ (IndexScan.invalidate s L).returned = s.returned.erase L
    ∧ (IndexScan.prepareToYield s).returned = s.returned
    ∧ (IndexScan.recoverFromYield s rc).returned = s.returned := by
  refine ⟨rfl, IndexScan.work_returned s ws,
    IndexScan.invalidate_returned s L, ?_, ?_⟩
  · unfold IndexScan.prepareToYield IndexScan.saveBody
    split
    · rfl
    · split <;> rfl
  · unfold IndexScan.recoverFromYield IndexScan.restoreBody
    split
    · rfl
    · split
      · exact (IndexScan.checkEnd_proj _).2.1
      · rfl

/-- C5: in a multikey scan, after `invalidate L` the location `L` is no
longer in the dedup set, and a step whose candidate entry points at `L`
(and passes the filter) returns `ADVANCED` with the duplicate-dropped
counter unchanged. -/
theorem C5_invalidate_reinstates (s : IndexScan) (ws : WorkingSet)
    (L : DiskLoc) (m : WorkingSetMember)
    (hnd : s.returned.Nodup)
    (hd : s.shouldDedup = true)
    (hm : IndexScan.stepMember (s.invalidate L) = some m)
    (hL : m.loc = L)
    (hf : Filter.passes m s.filter = true) :
    L ∉ (s.invalidate L).returned
    ∧ (∃ id, (IndexScan.work (s.invalidate L) ws).2.2 = .ADVANCED id)
    ∧ (IndexScan.work (s.invalidate L) ws).1.specificStats.dupsDropped
        = s.specificStats.dupsDropped := by
  have hnot : L ∉ (s.invalidate L).returned := by
    rw [IndexScan.invalidate_returned s L]
    exact hnd.not_mem_erase
  have ha : ¬ (IndexScan.advancePhase
      (IndexScan.incWorks (s.invalidate L))).isEOF = true := by
    intro ha
    unfold IndexScan.stepMember at hm
    rw [if_pos ha] at hm
    cases hm
  obtain ⟨c, hc⟩ := Option.isSome_iff_exists.mp
    (IndexScan.advancePhase_cursor_isSome
      (IndexScan.incWorks (s.invalidate L)))
  have hm' : m = ⟨c.getValue, [c.getKey], .LOC_AND_IDX⟩ := by
    unfold IndexScan.stepMember at hm
    rw [if_neg ha, hc] at hm
    simpa using hm.symm
  have hdd : (IndexScan.advancePhase
      (IndexScan.incWorks (s.invalidate L))).shouldDedup = true := by
    rw [(IndexScan.advancePhase_proj _).2.1]
    show (s.invalidate L).shouldDedup = true
    rw [(IndexScan.invalidate_proj s L).1]
    exact hd
  have haret : (IndexScan.advancePhase
      (IndexScan.incWorks (s.invalidate L))).returned
        = (s.invalidate L).returned :=
    (IndexScan.advancePhase_proj _).1
  have hafil : (IndexScan.advancePhase
      (IndexScan.incWorks (s.invalidate L))).filter = s.filter := by
    rw [(IndexScan.advancePhase_proj _).2.2.1]
    exact (IndexScan.invalidate_proj s L).2.1
  have hloc : c.getValue = L := by
    rw [hm'] at hL
    exact hL
  have hwork : IndexScan.work (s.invalidate L) ws =
      IndexScan.materialize
        { IndexScan.incDupsTested (IndexScan.advancePhase
            (IndexScan.incWorks (s.invalidate L))) with
          returned := c.getValue :: (IndexScan.advancePhase
            (IndexScan.incWorks (s.invalidate L))).returned } ws c := by
    unfold IndexScan.work IndexScan.workBody
    rw [if_neg ha, hc]
    dsimp only
    unfold IndexScan.examineCandidate
    rw [if_pos hdd, if_neg (by rw [haret, hloc]; exact hnot)]
  have hp : Filter.passes ⟨c.getValue, [c.getKey], .LOC_AND_IDX⟩
      ({ IndexScan.incDupsTested (IndexScan.advancePhase
          (IndexScan.incWorks (s.invalidate L))) with
         returned := c.getValue :: (IndexScan.advancePhase
           (IndexScan.incWorks (s.invalidate L))).returned }).filter
        = true := by
    have h1 : ({ IndexScan.incDupsTested (IndexScan.advancePhase
        (IndexScan.incWorks (s.invalidate L))) with
        returned := c.getValue :: (IndexScan.advancePhase
          (IndexScan.incWorks (s.invalidate L))).returned }).filter
          = s.filter := hafil
    rw [h1, ← hm']
    exact hf
  refine ⟨hnot, ⟨ws.allocate.2, ?_⟩, ?_⟩
  · rw [hwork, IndexScan.materialize_result, if_pos hp]
  · rw [hwork, (IndexScan.materialize_proj _ _ _).2]
    have h5 : ({ IndexScan.incDupsTested (IndexScan.advancePhase
        (IndexScan.incWorks (s.invalidate L))) with
        returned := c.getValue :: (IndexScan.advancePhase
          (IndexScan.incWorks (s.invalidate L))).returned
        }).specificStats.dupsDropped
          = (IndexScan.advancePhase (IndexScan.incWorks
              (s.invalidate L))).specificStats.dupsDropped :=
      rfl
    rw [h5, (IndexScan.advancePhase_proj _).2.2.2]
    exact (IndexScan.invalidate_proj s L).2.2

/-- C5 witness: a multikey scan that already emitted location `5`
(cursor at the first of two entries pointing at `5`), invalidated `5`,
and then steps onto the second entry for `5`: the step advances and the
duplicate-dropped counter stays at `0`. -/
theorem C5_invalidate_reinstates_witness :
    5 ∉ ((⟨0, none, false, 1, false, none, true, false, 0,
        [⟨1, 5⟩, ⟨2, 5⟩], some ⟨[⟨1, 5⟩, ⟨2, 5⟩], 0⟩, [5], 0, 0,
        ⟨1, 0, 0, 0, 1, 0, false⟩, ⟨1, 0, 0, 0, 0⟩⟩ :
        IndexScan).invalidate 5).returned
    ∧ (∃ id, (IndexScan.work ((⟨0, none, false, 1, false, none, true, false,
        0, [⟨1, 5⟩, ⟨2, 5⟩], some ⟨[⟨1, 5⟩, ⟨2, 5⟩], 0⟩, [5], 0, 0,
        ⟨1, 0, 0, 0, 1, 0, false⟩, ⟨1, 0, 0, 0, 0⟩⟩ :
        IndexScan).invalidate 5) ⟨0, []⟩).2.2 = .ADVANCED id)
    ∧ (IndexScan.work ((⟨0, none, false, 1, false, none, true, false, 0,
        [⟨1, 5⟩, ⟨2, 5⟩], some ⟨[⟨1, 5⟩, ⟨2, 5⟩], 0⟩, [5], 0, 0,
        ⟨1, 0, 0, 0, 1, 0, false⟩, ⟨1, 0, 0, 0, 0⟩⟩ :
        IndexScan).invalidate 5) ⟨0, []⟩).1.specificStats.dupsDropped
      = (⟨1, 0, 0, 0, 0⟩ : IndexScanStats).dupsDropped :=
  C5_invalidate_reinstates _ ⟨0, []⟩ 5 ⟨5, [2], .LOC_AND_IDX⟩
    (by decide) rfl (by decide) rfl rfl

/-- C6: if recovery from a yield restores the cursor onto a key or
location different from the saved position, the stage flags the move
(counting it), adopts the restored cursor, re-derives the boundary
status at the restored key, and the next `work` call keeps the current
position instead of advancing. -/
theorem C6_resume_moved (s : IndexScan) (restored : IndexCursor)
    (c : IndexCursor) (hc : s.indexCursor = some c) (hne : s.isEOF = false)
    (hmoved : s.savedKey ≠ restored.getKey
      ∨ s.savedLoc ≠ restored.getValue) :
    (s.recoverFromYield restored).yieldMovedCursor = true
    ∧ (s.recoverFromYield restored).indexCursor = some restored
    ∧ (restored.isEOF = false →
        (s.recoverFromYield restored).hitEnd =
          IndexScan.boundaryHit s.endKey restored.getKey s.direction
            s.endKeyInclusive)
    ∧ IndexScan.advancePhase
        (IndexScan.incWorks (s.recoverFromYield restored))
        = { IndexScan.incWorks (s.recoverFromYield restored) with
            yieldMovedCursor := false }
    ∧ (s.recoverFromYield restored).specificStats.yieldMovedCursor
        = s.specificStats.yieldMovedCursor + 1 := by
  have hhe : s.hitEnd = false := by
    unfold IndexScan.isEOF at hne
    rw [hc] at hne
    exact (Bool.or_eq_false_iff.mp hne).2
  have hguard : ¬ ((IndexScan.incUnyields s).isEOF
      || (IndexScan.incUnyields s).indexCursor.isNone) = true := by
    have h1 : (IndexScan.incUnyields s).isEOF = s.isEOF := rfl
    have h2 : (IndexScan.incUnyields s).indexCursor = s.indexCursor := rfl
    rw [h1, h2, hne, hc]
    simp
  have hmoved' : (IndexScan.incUnyields s).savedKey ≠ restored.getKey
      ∨ (IndexScan.incUnyields s).savedLoc ≠ restored.getValue := hmoved
  refine ⟨?_, ?_, ?_, ?_, ?_⟩
  · unfold IndexScan.recoverFromYield IndexScan.restoreBody
    rw [if_neg hguard, if_pos hmoved']
    exact ((IndexScan.checkEnd_proj _).2.2.2.2.2).trans rfl
  · unfold IndexScan.recoverFromYield IndexScan.restoreBody
    rw [if_neg hguard, if_pos hmoved']
    exact (IndexScan.checkEnd_cursor _).trans rfl
  · intro hre
    unfold IndexScan.recoverFromYield IndexScan.restoreBody
    rw [if_neg hguard, if_pos hmoved']
    exact IndexScan.checkEnd_hitEnd_eq _ restored rfl
      (by show (restored.isEOF || s.hitEnd) = false; rw [hre, hhe]; rfl)
  · have hcur : (s.recoverFromYield restored).indexCursor
        = some restored := by
      unfold IndexScan.recoverFromYield IndexScan.restoreBody
      rw [if_neg hguard, if_pos hmoved']
      exact (IndexScan.checkEnd_cursor _).trans rfl
    have hflag : (s.recoverFromYield restored).yieldMovedCursor = true := by
      unfold IndexScan.recoverFromYield IndexScan.restoreBody
      rw [if_neg hguard, if_pos hmoved']
      exact ((IndexScan.checkEnd_proj _).2.2.2.2.2).trans rfl
    exact IndexScan.advancePhase_yieldMoved _ restored hcur hflag
  · unfold IndexScan.recoverFromYield IndexScan.restoreBody
    rw [if_neg hguard, if_pos hmoved']
    rw [(IndexScan.checkEnd_proj _).2.2.2.2.1]
    rfl

/-- C6 witness: a scan positioned at key `1`, location `10` whose saved
position matches that entry, restored onto a cursor at key `2`,
location `20`. -/
theorem C6_resume_moved_witness :
    ((⟨0, some 5, true, 1, false, none, false, false, 0,
        [⟨1, 10⟩], some ⟨[⟨1, 10⟩], 0⟩, [], 1, 10,
        ⟨1, 1, 0, 0, 1, 0, false⟩, ⟨0, 0, 0, 0, 0⟩⟩ :
        IndexScan).recoverFromYield ⟨[⟨2, 20⟩], 0⟩).yieldMovedCursor = true
    ∧ ((⟨0, some 5, true, 1, false, none, false, false, 0,
        [⟨1, 10⟩], some ⟨[⟨1, 10⟩], 0⟩, [], 1, 10,
        ⟨1, 1, 0, 0, 1, 0, false⟩, ⟨0, 0, 0, 0, 0⟩⟩ :
        IndexScan).recoverFromYield ⟨[⟨2, 20⟩], 0⟩).indexCursor
      = some ⟨[⟨2, 20⟩], 0⟩
    ∧ ((⟨[⟨2, 20⟩], 0⟩ : IndexCursor).isEOF = false →
        ((⟨0, some 5, true, 1, false, none, false, false, 0,
          [⟨1, 10⟩], some ⟨[⟨1, 10⟩], 0⟩, [], 1, 10,
          ⟨1, 1, 0, 0, 1, 0, false⟩, ⟨0, 0, 0, 0, 0⟩⟩ :
          IndexScan).recoverFromYield ⟨[⟨2, 20⟩], 0⟩).hitEnd =
          IndexScan.boundaryHit (some 5) (⟨[⟨2, 20⟩], 0⟩ :
            IndexCursor).getKey 1 true)
    ∧ IndexScan.advancePhase (IndexScan.incWorks
        ((⟨0, some 5, true, 1, false, none, false, false, 0,
          [⟨1, 10⟩], some ⟨[⟨1, 10⟩], 0⟩, [], 1, 10,
          ⟨1, 1, 0, 0, 1, 0, false⟩, ⟨0, 0, 0, 0, 0⟩⟩ :
          IndexScan).recoverFromYield ⟨[⟨2, 20⟩], 0⟩))
        = { IndexScan.incWorks
            ((⟨0, some 5, true, 1, false, none, false, false, 0,
              [⟨1, 10⟩], some ⟨[⟨1, 10⟩], 0⟩, [], 1, 10,
              ⟨1, 1, 0, 0, 1, 0, false⟩, ⟨0, 0, 0, 0, 0⟩⟩ :
              IndexScan).recoverFromYield ⟨[⟨2, 20⟩], 0⟩) with
            yieldMovedCursor := false }
    ∧ ((⟨0, some 5, true, 1, false, none, false, false, 0,
        [⟨1, 10⟩], some ⟨[⟨1, 10⟩], 0⟩, [], 1, 10,
        ⟨1, 1, 0, 0, 1, 0, false⟩, ⟨0, 0, 0, 0, 0⟩⟩ :
        IndexScan).recoverFromYield
          ⟨[⟨2, 20⟩], 0⟩).specificStats.yieldMovedCursor = 0 + 1 :=
  C6_resume_moved _ _ ⟨[⟨1, 10⟩], 0⟩ rfl rfl (Or.inl (by decide))

/-- C7: a forward scan over entries `[(1, A), (2, B), (3, C)]` with
`startKey = 1`, `endKey = 3`, exclusive bound, no filter, non-multikey:
successive `work` calls return `ADVANCED A`, `ADVANCED B`, `IS_EOF` —
the third entry is excluded by the exclusive end bound. -/
theorem C7_end_to_end_scan :
    (IndexScan.workN
      (IndexScan.init ⟨1, some 3, false, 1, 0, false, "", false⟩ none
        [⟨1, 100⟩, ⟨2, 200⟩, ⟨3, 300⟩]) ⟨0, []⟩ 0).2.2 = .ADVANCED 0
    ∧ ((IndexScan.workN
      (IndexScan.init ⟨1, some 3, false, 1, 0, false, "", false⟩ none
        [⟨1, 100⟩, ⟨2, 200⟩, ⟨3, 300⟩]) ⟨0, []⟩ 0).2.1.get 0).map (·.loc)
        = some 100
    ∧ (IndexScan.workN
      (IndexScan.init ⟨1, some 3, false, 1, 0, false, "", false⟩ none
        [⟨1, 100⟩, ⟨2, 200⟩, ⟨3, 300⟩]) ⟨0, []⟩ 1).2.2 = .ADVANCED 1
    ∧ ((IndexScan.workN
      (IndexScan.init ⟨1, some 3, false, 1, 0, false, "", false⟩ none
        [⟨1, 100⟩, ⟨2, 200⟩, ⟨3, 300⟩]) ⟨0, []⟩ 1).2.1.get 1).map (·.loc)
        = some 200
    ∧ (IndexScan.workN
      (IndexScan.init ⟨1, some 3, false, 1, 0, false, "", false⟩ none
        [⟨1, 100⟩, ⟨2, 200⟩, ⟨3, 300⟩]) ⟨0, []⟩ 2).2.2 = .IS_EOF :=
  ⟨rfl, rfl, rfl, rfl, rfl⟩

/-- C8 counterexample: on a freshly constructed scan (no cursor yet),
`prepareToYield` changes the yields counter — so the operation is not a
no-op on every component of the state. -/
theorem C8_counterexample :
    (IndexScan.init ⟨1, none, false, 1, 0, false, "", false⟩ none
      []).indexCursor = none
    ∧ (IndexScan.prepareToYield (IndexScan.init
        ⟨1, none, false, 1, 0, false, "", false⟩ none [])).commonStats.yields
      ≠ (IndexScan.init ⟨1, none, false, 1, 0, false, "", false⟩ none
          []).commonStats.yields :=
  ⟨rfl, by decide⟩

/-- C8 (amended): if the scan is already at EOF or no cursor has been
constructed yet, `prepareToYield` leaves the entire stage state
unchanged except for incrementing the yields counter, and
`recoverFromYield` likewise except for the unyields counter. -/
theorem C8_noop_modulo_counter (s : IndexScan) (restored : IndexCursor)
    (h : s.isEOF = true ∨ s.indexCursor = none) :
    IndexScan.prepareToYield s = IndexScan.incYields s
    ∧ IndexScan.recoverFromYield s restored = IndexScan.incUnyields s := by
  have hg : (s.isEOF || s.indexCursor.isNone) = true := by
    rcases h with h | h <;> simp [h]
  constructor
  · unfold IndexScan.prepareToYield IndexScan.saveBody
    rw [if_pos (show ((IndexScan.incYields s).isEOF
      || (IndexScan.incYields s).indexCursor.isNone) = true from hg)]
  · unfold IndexScan.recoverFromYield IndexScan.restoreBody
    rw [if_pos (show ((IndexScan.incUnyields s).isEOF
      || (IndexScan.incUnyields s).indexCursor.isNone) = true from hg)]

/-- C8 witness: the amended no-op property at a freshly constructed
scan, which has no cursor. -/
theorem C8_noop_modulo_counter_witness :
    IndexScan.prepareToYield
      (IndexScan.init ⟨1, none, false, 1, 0, false, "", false⟩ none [])
      = IndexScan.incYields
        (IndexScan.init ⟨1, none, false, 1, 0, false, "", false⟩ none [])
    ∧ IndexScan.recoverFromYield
      (IndexScan.init ⟨1, none, false, 1, 0, false, "", false⟩ none [])
        ⟨[], 0⟩
      = IndexScan.incUnyields
        (IndexScan.init ⟨1, none, false, 1, 0, false, "", false⟩ none []) :=
  C8_noop_modulo_counter _ ⟨[], 0⟩ (Or.inr rfl)

/-- C9: on every exit path of `work` that does not return `ADVANCED` —
in particular a filter rejection — the member allocated during the step
has been freed: the working set's live members are exactly those before
the call. -/
theorem C9_no_leak_on_rejection (s : IndexScan) (ws : WorkingSet)
    (hwf : ∀ q ∈ ws.members, q.1 < ws.nextId)
    (hres : ∀ id, (IndexScan.work s ws).2.2 ≠ .ADVANCED id) :
    (IndexScan.work s ws).2.1.members = ws.members := by
  rcases IndexScan.work_ws s ws hwf with h | ⟨id, h⟩
  · exact h
  · exact absurd h (hres id)

/-- C9 witness: a step whose filter rejects the candidate leaves an
initially empty working set empty. -/
theorem C9_no_leak_on_rejection_witness :
    (IndexScan.work (IndexScan.init ⟨1, none, false, 1, 0, false, "", false⟩
      (some fun _ => false) [⟨1, 10⟩]) ⟨0, []⟩).2.1.members
      = (⟨0, []⟩ : WorkingSet).members :=
  C9_no_leak_on_rejection _ ⟨0, []⟩
    (fun q hq => absurd hq (List.not_mem_nil q))
    (fun _ h => StageState.noConfusion h)

/-- C10: for a 2d or 2dsphere index (whose access method ignores ranged
end bounds) not forced onto the btree access method, construction with
a non-empty end key is rejected with a configuration error, and
construction with an empty end key succeeds. -/
theorem C10_geo_rejects_end_key (p : IndexScanParams) (f : MatchFilter)
    (e : List IndexEntry)
    (ham : p.accessMethodName = "2d" ∨ p.accessMethodName = "2dsphere")
    (hforce : p.forceBtreeAccessMethod = false) :
    (p.endKey ≠ none → ∃ msg, IndexScan.construct p f e = .error msg)
    ∧ (p.endKey = none →
        IndexScan.construct p f e = .ok (IndexScan.init p f e)) := by
  have hAm : (if p.forceBtreeAccessMethod then "" else p.accessMethodName)
      = p.accessMethodName := by
    rw [hforce]
    simp
  constructor
  · intro hek
    unfold IndexScan.construct
    rw [if_pos ⟨by rw [hAm]; exact ham, hek⟩]
    exact ⟨_, rfl⟩
  · intro hek
    unfold IndexScan.construct
    rw [if_neg fun hcon => hcon.2 hek]

/-- C10 witness: the geo end-key precondition instantiated at a 2d
index. -/
theorem C10_geo_rejects_end_key_witness :
    ((⟨0, some 1, false, 1, 0, false, "2d", false⟩ :
        IndexScanParams).endKey ≠ none →
      ∃ msg, IndexScan.construct
        ⟨0, some 1, false, 1, 0, false, "2d", false⟩ none [] = .error msg)
    ∧ ((⟨0, some 1, false, 1, 0, false, "2d", false⟩ :
        IndexScanParams).endKey = none →
      IndexScan.construct ⟨0, some 1, false, 1, 0, false, "2d", false⟩ none []
        = .ok (IndexScan.init
            ⟨0, some 1, false, 1, 0, false, "2d", false⟩ none [])) :=
  C10_geo_rejects_end_key ⟨0, some 1, false, 1, 0, false, "2d", false⟩
    none [] (Or.inl rfl) rfl
